import Mathlib

/-
Verification development for the NanoGDR RDMA utility library.

The definitions below are a shallow embedding of src/include/rdma_util.h and
src/benchmarks/bench_tccl.cpp.  Machine integers are modelled as Nat (no
arithmetic in the embedded code overflows its C type on the concrete inputs
used), fallible verbs calls are modelled through an environment of success
flags, and functions that throw are modelled with Except.
-/

/-- QP states, mirroring enum QueuePairState in src/include/rdma_util.h
(RESET, INIT, RTR, RTS, UNKNOWN). -/
inductive QueuePairState where
  | RESET
  | INIT
  | RTR
  | RTS
  | UNKNOWN
deriving DecidableEq

/-- Path MTU values of enum ibv_mtu; bring_up uses IBV_MTU_4096. -/
inductive IbvMtu where
  | MTU_256
  | MTU_512
  | MTU_1024
  | MTU_2048
  | MTU_4096
deriving DecidableEq

/-- The ibv_qp_cap fields set in the RcQueuePair constructor
(rdma_util.h lines 186-190). -/
structure QpCap where
  max_send_wr : Nat
  max_recv_wr : Nat
  max_send_sge : Nat
  max_recv_sge : Nat
  max_inline_data : Nat
deriving DecidableEq

/-- Model of an RcQueuePair: the QP number assigned by the device, the depths
of the two completion queues it creates, the ibv_qp_cap it was created with,
its current state, and the ibv_qp_attr fields that bring_up sets.  Attribute
fields not yet configured hold their zero/none defaults. -/
structure RcQueuePairModel where
  qp_num : Nat
  send_cq_depth : Nat
  recv_cq_depth : Nat
  cap : QpCap
  state : QueuePairState
  pkey_index : Nat
  port_num : Nat
  qp_access_flags : Nat
  path_mtu : Option IbvMtu
  rq_psn : Nat
  dest_qp_num : Nat
  max_dest_rd_atomic : Nat
  min_rnr_timer : Nat
  sq_psn : Nat
  max_rd_atomic : Nat
  timeout : Nat
  retry_cnt : Nat
  rnr_retry : Nat
deriving DecidableEq

/-- The ibv_access_flags values used by the wrapper. -/
def IBV_ACCESS_LOCAL_WRITE : Nat := 1
def IBV_ACCESS_REMOTE_WRITE : Nat := 2
def IBV_ACCESS_REMOTE_READ : Nat := 4

/-- The RcQueuePair constructor (rdma_util.h lines 152-200): both completion
queues are created with ibv_create_cq(context, 128, ...), and the QP is
created with max_send_wr=128, max_recv_wr=1024, max_send_sge=1,
max_recv_sge=1, max_inline_data=64.  A freshly created verbs QP starts in
the RESET state.  The device-assigned QP number is a parameter. -/
def createRcQueuePair (qp_num : Nat) : RcQueuePairModel :=
  { qp_num := qp_num
    send_cq_depth := 128
    recv_cq_depth := 128
    cap := { max_send_wr := 128
             max_recv_wr := 1024
             max_send_sge := 1
             max_recv_sge := 1
             max_inline_data := 64 }
    state := QueuePairState.RESET
    pkey_index := 0
    port_num := 0
    qp_access_flags := 0
    path_mtu := none
    rq_psn := 0
    dest_qp_num := 0
    max_dest_rd_atomic := 0
    min_rnr_timer := 0
    sq_psn := 0
    max_rd_atomic := 0
    timeout := 0
    retry_cnt := 0
    rnr_retry := 0 }

/-- HandshakeData (rdma_util.h lines 14-18): gid, lid, qp_num.  The 16-byte
GID and the 16-bit LID are abstracted as Nat. -/
structure HandshakeData where
  gid : Nat
  lid : Nat
  qp_num : Nat
deriving DecidableEq

/-- RcQueuePair::get_handshake_data (rdma_util.h lines 243-258): queries the
port gid and lid of the context and pairs them with the QP number. -/
def get_handshake_data (port_gid port_lid : Nat) (qp : RcQueuePairModel) :
    HandshakeData :=
  { gid := port_gid, lid := port_lid, qp_num := qp.qp_num }

/-- Outcomes of the fallible verbs calls made by bring_up: whether
ibv_query_qp and each of the three ibv_modify_qp calls succeed. -/
structure VerbsEnv where
  query_qp_ok : Bool
  modify_init_ok : Bool
  modify_rtr_ok : Bool
  modify_rts_ok : Bool
deriving DecidableEq

/-- All four verbs calls available to bring_up succeed. -/
def VerbsEnv.allOk (env : VerbsEnv) : Prop :=
  env.query_qp_ok = true ∧ env.modify_init_ok = true ∧
    env.modify_rtr_ok = true ∧ env.modify_rts_ok = true

/-- RcQueuePair::bring_up (rdma_util.h lines 260-347).  First queries the QP
state: on query failure it throws; if the state is RTS it warns and returns
(success, no modification); if the state is not RESET it throws.  Otherwise
it performs three ibv_modify_qp steps, each throwing on failure:
to INIT (pkey_index=0, port_num=1, access LOCAL_WRITE|REMOTE_READ|
REMOTE_WRITE), to RTR (path_mtu=IBV_MTU_4096, rq_psn=dest_qp_num=remote
qp_num from the handshake, max_dest_rd_atomic=16, min_rnr_timer=0), and to
RTS (sq_psn=local qp_num, max_rd_atomic=16, timeout=14, retry_cnt=7,
rnr_retry=7). -/
def bring_up (env : VerbsEnv) (handshake_data : HandshakeData)
    (qp : RcQueuePairModel) : Except String RcQueuePairModel :=
  if env.query_qp_ok = false then Except.error "Failed to query QP state"
  else if qp.state = QueuePairState.RTS then Except.ok qp
  else if qp.state ≠ QueuePairState.RESET then
    Except.error "QP state is not RESET"
  else if env.modify_init_ok = false then Except.error "Failed to modify to INIT"
  else
    let qp1 := { qp with
                 state := QueuePairState.INIT
                 pkey_index := 0
                 port_num := 1
                 qp_access_flags :=
                   IBV_ACCESS_LOCAL_WRITE ||| IBV_ACCESS_REMOTE_READ |||
                     IBV_ACCESS_REMOTE_WRITE }
    if env.modify_rtr_ok = false then Except.error "Failed to modify to RTR"
    else
      let qp2 := { qp1 with
                   state := QueuePairState.RTR
                   path_mtu := some IbvMtu.MTU_4096
                   rq_psn := handshake_data.qp_num
                   dest_qp_num := handshake_data.qp_num
                   max_dest_rd_atomic := 16
                   min_rnr_timer := 0 }
      if env.modify_rts_ok = false then Except.error "Failed to modify to RTS"
      else
        Except.ok { qp2 with
                    state := QueuePairState.RTS
                    sq_psn := qp.qp_num
                    max_rd_atomic := 16
                    timeout := 14
                    retry_cnt := 7
                    rnr_retry := 7 }

/-- An Except value is an error. -/
def exceptIsError {α : Type} : Except String α → Bool
  | Except.error _ => true
  | Except.ok _ => false

/-- C2: for a QP already in RTS, bring_up returns success without changing the
QP state (with any handshake data); in any state other than RESET and RTS it
fails; and no error is silently swallowed: a successful bring_up means the
state query succeeded and either the QP was already in RTS (returned
unchanged) or all three modify steps succeeded and the QP reached RTS. -/
theorem bring_up_idempotent_rts_fails_otherwise
    (env : VerbsEnv) (hd : HandshakeData) (qp : RcQueuePairModel) :
    (env.query_qp_ok = true → qp.state = QueuePairState.RTS →
      bring_up env hd qp = Except.ok qp) ∧
    (env.query_qp_ok = true → qp.state ≠ QueuePairState.RESET →
      qp.state ≠ QueuePairState.RTS →
      exceptIsError (bring_up env hd qp) = true) ∧
    (∀ q, bring_up env hd qp = Except.ok q →
      env.query_qp_ok = true ∧
        ((qp.state = QueuePairState.RTS ∧ q = qp) ∨
          (env.modify_init_ok = true ∧ env.modify_rtr_ok = true ∧
            env.modify_rts_ok = true ∧ q.state = QueuePairState.RTS))) := by
  obtain ⟨e1, e2, e3, e4⟩ := env
  refine ⟨?_, ?_, ?_⟩
  · intro hq hrts
    simp only at hq
    simp [bring_up, hq, hrts]
  · intro hq h1 h2
    simp only at hq
    simp [bring_up, hq, h1, h2, exceptIsError]
  · intro q hok
    cases e1 <;> cases e2 <;> cases e3 <;> cases e4 <;>
      by_cases hs : qp.state = QueuePairState.RTS <;>
      by_cases hr : qp.state = QueuePairState.RESET <;>
      simp_all [bring_up]
    all_goals
      subst hok
      rfl

/-- Witness for C2: a QP already in RTS, brought up again with arbitrary
handshake data under a fully succeeding verbs environment, returns success
with the QP unchanged. -/
theorem bring_up_idempotent_rts_witness :
    bring_up ⟨true, true, true, true⟩ ⟨0, 0, 9⟩
        { createRcQueuePair 5 with state := QueuePairState.RTS } =
      Except.ok { createRcQueuePair 5 with state := QueuePairState.RTS } :=
  (bring_up_idempotent_rts_fails_otherwise ⟨true, true, true, true⟩ ⟨0, 0, 9⟩
    { createRcQueuePair 5 with state := QueuePairState.RTS }).1 rfl rfl

/-- C3 as stated is false on the code: the RcQueuePair constructor creates
the recv completion queue with ibv_create_cq(context, 128, ...), so its
depth is 128, not at least 1024. -/
theorem createRcQueuePair_recv_cq_depth_counterexample :
    (createRcQueuePair 0).recv_cq_depth = 128 ∧
      ¬ 1024 ≤ (createRcQueuePair 0).recv_cq_depth := by
  decide

/-- C3 amended: every successfully created RcQueuePair has a send completion
queue of depth 128 and a recv completion queue of depth 128 (1024 is the
depth of the recv work queue, cap.max_recv_wr, not of the recv CQ), and the
QP is in RESET immediately after creation. -/
theorem createRcQueuePair_cq_depths_and_reset (qp_num : Nat) :
    (createRcQueuePair qp_num).send_cq_depth = 128 ∧
    128 ≤ (createRcQueuePair qp_num).send_cq_depth ∧
    (createRcQueuePair qp_num).recv_cq_depth = 128 ∧
    (createRcQueuePair qp_num).cap.max_recv_wr = 1024 ∧
    (createRcQueuePair qp_num).state = QueuePairState.RESET :=
  ⟨rfl, le_refl 128, rfl, rfl, rfl⟩

/-- Witness for the amended C3 at a concrete QP number. -/
theorem createRcQueuePair_cq_depths_witness :
    (createRcQueuePair 7).send_cq_depth = 128 ∧
    128 ≤ (createRcQueuePair 7).send_cq_depth ∧
    (createRcQueuePair 7).recv_cq_depth = 128 ∧
    (createRcQueuePair 7).cap.max_recv_wr = 1024 ∧
    (createRcQueuePair 7).state = QueuePairState.RESET :=
  createRcQueuePair_cq_depths_and_reset 7

/-- C4: every RcQueuePair is created with send queue depth 128 (≥ 128), recv
queue depth 1024 (≥ 1024), a single SGE per work request (send and recv),
and 64 bytes of inline data permitted; and a successful bring_up from RESET
configures path MTU 4096, max_rd_atomic = max_dest_rd_atomic = 16,
timeout 14, retry_cnt 7, rnr_retry 7. -/
theorem qp_caps_and_bring_up_attrs (qp_num : Nat) (env : VerbsEnv)
    (henv : env.allOk) (hd : HandshakeData) (qp : RcQueuePairModel)
    (hstate : qp.state = QueuePairState.RESET) :
    (128 ≤ (createRcQueuePair qp_num).cap.max_send_wr ∧
     1024 ≤ (createRcQueuePair qp_num).cap.max_recv_wr ∧
     (createRcQueuePair qp_num).cap.max_send_sge = 1 ∧
     (createRcQueuePair qp_num).cap.max_recv_sge = 1 ∧
     (createRcQueuePair qp_num).cap.max_inline_data = 64) ∧
    ∃ q, bring_up env hd qp = Except.ok q ∧
      q.path_mtu = some IbvMtu.MTU_4096 ∧
      q.max_rd_atomic = 16 ∧ q.max_dest_rd_atomic = 16 ∧
      q.timeout = 14 ∧ q.retry_cnt = 7 ∧ q.rnr_retry = 7 := by
  obtain ⟨h1, h2, h3, h4⟩ := henv
  refine ⟨⟨le_refl 128, le_refl 1024, rfl, rfl, rfl⟩, ?_⟩
  have hrts : qp.state ≠ QueuePairState.RTS := by
    rw [hstate]
    intro h
    cases h
  unfold bring_up
  simp [h1, h2, h3, h4, hstate, hrts]

/-- Witness for C4 at concrete inputs. -/
theorem qp_caps_and_bring_up_attrs_witness :
    (128 ≤ (createRcQueuePair 1).cap.max_send_wr ∧
     1024 ≤ (createRcQueuePair 1).cap.max_recv_wr ∧
     (createRcQueuePair 1).cap.max_send_sge = 1 ∧
     (createRcQueuePair 1).cap.max_recv_sge = 1 ∧
     (createRcQueuePair 1).cap.max_inline_data = 64) ∧
    ∃ q, bring_up ⟨true, true, true, true⟩ ⟨0, 0, 2⟩ (createRcQueuePair 1) =
        Except.ok q ∧
      q.path_mtu = some IbvMtu.MTU_4096 ∧
      q.max_rd_atomic = 16 ∧ q.max_dest_rd_atomic = 16 ∧
      q.timeout = 14 ∧ q.retry_cnt = 7 ∧ q.rnr_retry = 7 :=
  qp_caps_and_bring_up_attrs 1 ⟨true, true, true, true⟩ ⟨rfl, rfl, rfl, rfl⟩
    ⟨0, 0, 2⟩ (createRcQueuePair 1) rfl

/-- C10: bring_up sets rq_psn to the peer QP number carried in the handshake
data and sq_psn to the local QP number; hence when two QPs in RESET are
brought up with each other's handshake data, each side's sq_psn equals the
other side's rq_psn. -/
theorem bring_up_psn_mirroring (env : VerbsEnv) (henv : env.allOk)
    (gA lA gB lB : Nat) (qpA qpB : RcQueuePairModel)
    (hA : qpA.state = QueuePairState.RESET)
    (hB : qpB.state = QueuePairState.RESET) :
    ∃ qpA2 qpB2,
      bring_up env (get_handshake_data gB lB qpB) qpA = Except.ok qpA2 ∧
      bring_up env (get_handshake_data gA lA qpA) qpB = Except.ok qpB2 ∧
      qpA2.rq_psn = qpB.qp_num ∧ qpA2.sq_psn = qpA.qp_num ∧
      qpB2.rq_psn = qpA.qp_num ∧ qpB2.sq_psn = qpB.qp_num ∧
      qpA2.sq_psn = qpB2.rq_psn ∧ qpB2.sq_psn = qpA2.rq_psn := by
  obtain ⟨h1, h2, h3, h4⟩ := henv
  have hA2 : qpA.state ≠ QueuePairState.RTS := by
    rw [hA]
    intro h
    cases h
  have hB2 : qpB.state ≠ QueuePairState.RTS := by
    rw [hB]
    intro h
    cases h
  unfold bring_up get_handshake_data
  simp [h1, h2, h3, h4, hA, hB, hA2, hB2]

/-- Witness for C10: two concrete QPs brought up with each other's handshake
data have mirrored packet sequence numbers. -/
theorem bring_up_psn_mirroring_witness :
    ∃ qpA2 qpB2,
      bring_up ⟨true, true, true, true⟩
          (get_handshake_data 0 0 (createRcQueuePair 4)) (createRcQueuePair 3) =
        Except.ok qpA2 ∧
      bring_up ⟨true, true, true, true⟩
          (get_handshake_data 0 0 (createRcQueuePair 3)) (createRcQueuePair 4) =
        Except.ok qpB2 ∧
      qpA2.rq_psn = (createRcQueuePair 4).qp_num ∧
      qpA2.sq_psn = (createRcQueuePair 3).qp_num ∧
      qpB2.rq_psn = (createRcQueuePair 3).qp_num ∧
      qpB2.sq_psn = (createRcQueuePair 4).qp_num ∧
      qpA2.sq_psn = qpB2.rq_psn ∧ qpB2.sq_psn = qpA2.rq_psn :=
  bring_up_psn_mirroring ⟨true, true, true, true⟩ ⟨rfl, rfl, rfl, rfl⟩
    0 0 0 0 (createRcQueuePair 3) (createRcQueuePair 4) rfl rfl

/-- The fields of a raw verbs work completion (ibv_wc) that the wrapper could
read: wr_id, status (IBV_WC_SUCCESS = 0), opcode, byte_len, imm_data. -/
structure IbvWc where
  wr_id : Nat
  status : Nat
  opcode : Nat
  byte_len : Nat
  imm_data : Nat
deriving DecidableEq

/-- ibv_wc_status IBV_WC_SUCCESS. -/
def IBV_WC_SUCCESS : Nat := 0

/-- struct WorkCompletion (rdma_util.h lines 136-139): the record handed to
the caller carries only a success flag and the wr_id. -/
structure WorkCompletion where
  success : Bool
  wr_id : Nat
deriving DecidableEq

/-- The conversion performed inside the polling loops (rdma_util.h lines
403-405 and 442-444): success is status == IBV_WC_SUCCESS, wr_id is copied.
No other ibv_wc field is read. -/
def toWorkCompletion (wc : IbvWc) : WorkCompletion :=
  { success := wc.status == IBV_WC_SUCCESS, wr_id := wc.wr_id }

/-- One return of ibv_poll_cq: either ret = wcs.length ≥ 0 completions were
polled (ret = 0 when wcs is empty), or the poll failed with the negative
return value -(e+1). -/
inductive PollOutcome where
  | ok (wcs : List IbvWc)
  | err (e : Nat)
deriving DecidableEq

/-- The first error code returned by a sequence of polls, as the Int the C
code sees (negative). -/
def firstErr : List PollOutcome → Option Int
  | [] => none
  | PollOutcome.ok _ :: rest => firstErr rest
  | PollOutcome.err e :: _ => some (Int.negSucc e)

/-- Total number of work completions carried by a sequence of polls. -/
def totalPolled : List PollOutcome → Nat
  | [] => 0
  | PollOutcome.ok wcs :: rest => wcs.length + totalPolled rest
  | PollOutcome.err _ :: rest => totalPolled rest

/-- All work completions carried by a sequence of polls, in poll order. -/
def allWcs : List PollOutcome → List IbvWc
  | [] => []
  | PollOutcome.ok wcs :: rest => wcs ++ allWcs rest
  | PollOutcome.err _ :: rest => allWcs rest

/-- The while loop shared by wait_until_send_completion and
wait_until_recv_completion (rdma_util.h lines 398-413 and 437-452), driven
by the successive ibv_poll_cq outcomes: while fewer than expected
completions were accumulated, poll; on ret > 0 append the converted
completions and add ret to the count; on ret < 0 return ret with the
completions gathered so far; on ret = 0 loop.  On reaching the expected
count return 0.  The result is none when the outcome sequence is exhausted
first (the C loop would still be spinning). -/
def waitLoop (expected : Nat) :
    List PollOutcome → Nat → List WorkCompletion →
      Option (Int × List WorkCompletion)
  | polls, numPolled, acc =>
    if expected ≤ numPolled then some (0, acc)
    else
      match polls with
      | [] => none
      | PollOutcome.ok wcs :: rest =>
          if 0 < wcs.length then
            waitLoop expected rest (numPolled + wcs.length)
              (acc ++ wcs.map toWorkCompletion)
          else waitLoop expected rest numPolled acc
      | PollOutcome.err e :: _ => some (Int.negSucc e, acc)

/-- RcQueuePair::wait_until_send_completion (rdma_util.h lines 388-416):
clears polled_wcs when it is non-empty, then runs the polling loop starting
from zero accumulated completions.  The poll outcomes of the send CQ are a
parameter. -/
def wait_until_send_completion (expected_num_wcs : Nat)
    (polled_wcs : List WorkCompletion) (polls : List PollOutcome) :
    Option (Int × List WorkCompletion) :=
  let cleared := if 0 < polled_wcs.length then [] else polled_wcs
  waitLoop expected_num_wcs polls 0 cleared

/-- RcQueuePair::wait_until_recv_completion (rdma_util.h lines 427-455):
identical to wait_until_send_completion except that it polls the recv CQ,
whose outcomes are the parameter. -/
def wait_until_recv_completion (expected_num_wcs : Nat)
    (polled_wcs : List WorkCompletion) (polls : List PollOutcome) :
    Option (Int × List WorkCompletion) :=
  let cleared := if 0 < polled_wcs.length then [] else polled_wcs
  waitLoop expected_num_wcs polls 0 cleared

/-- Once the expected count is reached the loop returns 0 with the
accumulated completions. -/
theorem waitLoop_done (expected : Nat) (polls : List PollOutcome)
    (numPolled : Nat) (acc : List WorkCompletion) (h : expected ≤ numPolled) :
    waitLoop expected polls numPolled acc = some (0, acc) := by
  rw [waitLoop.eq_def]
  simp [h]

/-- With the count short and no further poll outcomes the loop is still
spinning. -/
theorem waitLoop_not_done_nil (expected : Nat) (numPolled : Nat)
    (acc : List WorkCompletion) (h : ¬ expected ≤ numPolled) :
    waitLoop expected [] numPolled acc = none := by
  rw [waitLoop.eq_def]
  simp [h]

/-- A successful poll of one or more completions appends their conversions
and adds the return count. -/
theorem waitLoop_ok_pos (expected : Nat) (wcs : List IbvWc)
    (rest : List PollOutcome) (numPolled : Nat) (acc : List WorkCompletion)
    (h : ¬ expected ≤ numPolled) (hw : 0 < wcs.length) :
    waitLoop expected (PollOutcome.ok wcs :: rest) numPolled acc =
      waitLoop expected rest (numPolled + wcs.length)
        (acc ++ wcs.map toWorkCompletion) := by
  rw [waitLoop.eq_def]
  simp [h, hw]

/-- A poll that returns zero completions leaves the loop state unchanged. -/
theorem waitLoop_ok_zero (expected : Nat) (wcs : List IbvWc)
    (rest : List PollOutcome) (numPolled : Nat) (acc : List WorkCompletion)
    (h : ¬ expected ≤ numPolled) (hw : ¬ 0 < wcs.length) :
    waitLoop expected (PollOutcome.ok wcs :: rest) numPolled acc =
      waitLoop expected rest numPolled acc := by
  rw [waitLoop.eq_def]
  simp [h, hw]

/-- A failed poll makes the loop return the negative code at once, with the
completions gathered so far. -/
theorem waitLoop_err (expected : Nat) (e : Nat) (rest : List PollOutcome)
    (numPolled : Nat) (acc : List WorkCompletion)
    (h : ¬ expected ≤ numPolled) :
    waitLoop expected (PollOutcome.err e :: rest) numPolled acc =
      some (Int.negSucc e, acc) := by
  rw [waitLoop.eq_def]
  simp [h]

/-- Characterization of every value the loop can return: either code 0 with
at least the expected number of completions accumulated, or the (negative)
code of the first failing poll. -/
theorem waitLoop_result (expected : Nat) (polls : List PollOutcome) :
    ∀ (numPolled : Nat) (acc : List WorkCompletion),
      acc.length = numPolled →
      ∀ (r : Int) (out : List WorkCompletion),
        waitLoop expected polls numPolled acc = some (r, out) →
        (r = 0 ∧ expected ≤ out.length) ∨ (r < 0 ∧ firstErr polls = some r) := by
  induction polls with
  | nil =>
    intro numPolled acc hlen r out h
    by_cases hle : expected ≤ numPolled
    · rw [waitLoop_done expected [] numPolled acc hle] at h
      simp at h
      obtain ⟨h1, h2⟩ := h
      exact Or.inl ⟨h1.symm, by rw [← h2, hlen]; exact hle⟩
    · rw [waitLoop_not_done_nil expected numPolled acc hle] at h
      simp at h
  | cons head rest ih =>
    intro numPolled acc hlen r out h
    by_cases hle : expected ≤ numPolled
    · rw [waitLoop_done expected (head :: rest) numPolled acc hle] at h
      simp at h
      obtain ⟨h1, h2⟩ := h
      exact Or.inl ⟨h1.symm, by rw [← h2, hlen]; exact hle⟩
    · cases head with
      | ok wcs =>
        by_cases hw : 0 < wcs.length
        · rw [waitLoop_ok_pos expected wcs rest numPolled acc hle hw] at h
          have hlen2 : (acc ++ wcs.map toWorkCompletion).length =
              numPolled + wcs.length := by
            simp [hlen]
          rcases ih (numPolled + wcs.length) (acc ++ wcs.map toWorkCompletion)
              hlen2 r out h with h1 | h2
          · exact Or.inl h1
          · exact Or.inr ⟨h2.1, by simpa [firstErr] using h2.2⟩
        · rw [waitLoop_ok_zero expected wcs rest numPolled acc hle hw] at h
          rcases ih numPolled acc hlen r out h with h1 | h2
          · exact Or.inl h1
          · exact Or.inr ⟨h2.1, by simpa [firstErr] using h2.2⟩
      | err e =>
        rw [waitLoop_err expected e rest numPolled acc hle] at h
        simp at h
        obtain ⟨h1, h2⟩ := h
        refine Or.inr ⟨?_, ?_⟩
        · rw [← h1]
          exact Int.negSucc_lt_zero e
        · simp [firstErr, ← h1]

/-- When no poll fails and the polls carry at least the number of
completions still needed, the loop returns 0. -/
theorem waitLoop_no_err (expected : Nat) (polls : List PollOutcome) :
    ∀ (numPolled : Nat) (acc : List WorkCompletion),
      firstErr polls = none →
      expected ≤ numPolled + totalPolled polls →
      ∃ out, waitLoop expected polls numPolled acc = some (0, out) := by
  induction polls with
  | nil =>
    intro numPolled acc _ htot
    have hle : expected ≤ numPolled := by simpa [totalPolled] using htot
    exact ⟨acc, waitLoop_done expected [] numPolled acc hle⟩
  | cons head rest ih =>
    intro numPolled acc herr htot
    by_cases hle : expected ≤ numPolled
    · exact ⟨acc, waitLoop_done expected (head :: rest) numPolled acc hle⟩
    · cases head with
      | ok wcs =>
        have herr2 : firstErr rest = none := by simpa [firstErr] using herr
        have htot2 : expected ≤ numPolled + wcs.length + totalPolled rest := by
          simp [totalPolled] at htot
          omega
        by_cases hw : 0 < wcs.length
        · obtain ⟨out, hout⟩ := ih (numPolled + wcs.length)
            (acc ++ wcs.map toWorkCompletion) herr2 htot2
          exact ⟨out, by
            rw [waitLoop_ok_pos expected wcs rest numPolled acc hle hw]
            exact hout⟩
        · have hw0 : wcs.length = 0 := by omega
          obtain ⟨out, hout⟩ := ih numPolled acc herr2 (by omega)
          exact ⟨out, by
            rw [waitLoop_ok_zero expected wcs rest numPolled acc hle hw]
            exact hout⟩
      | err e =>
        simp [firstErr] at herr

/-- Provenance of the delivered entries: every completion the loop returns
was either already accumulated or is the conversion of a raw completion
carried by one of the polls. -/
theorem waitLoop_out_mem (expected : Nat) (polls : List PollOutcome) :
    ∀ (numPolled : Nat) (acc : List WorkCompletion) (r : Int)
      (out : List WorkCompletion),
      waitLoop expected polls numPolled acc = some (r, out) →
      ∀ wc ∈ out, wc ∈ acc ∨ ∃ raw ∈ allWcs polls, wc = toWorkCompletion raw := by
  induction polls with
  | nil =>
    intro numPolled acc r out h wc hwc
    by_cases hle : expected ≤ numPolled
    · rw [waitLoop_done expected [] numPolled acc hle] at h
      simp at h
      rw [← h.2] at hwc
      exact Or.inl hwc
    · rw [waitLoop_not_done_nil expected numPolled acc hle] at h
      simp at h
  | cons head rest ih =>
    intro numPolled acc r out h wc hwc
    by_cases hle : expected ≤ numPolled
    · rw [waitLoop_done expected (head :: rest) numPolled acc hle] at h
      simp at h
      rw [← h.2] at hwc
      exact Or.inl hwc
    · cases head with
      | ok wcs =>
        by_cases hw : 0 < wcs.length
        · rw [waitLoop_ok_pos expected wcs rest numPolled acc hle hw] at h
          rcases ih (numPolled + wcs.length) (acc ++ wcs.map toWorkCompletion)
              r out h wc hwc with h1 | h2
          · rcases List.mem_append.mp h1 with ha | hm
            · exact Or.inl ha
            · obtain ⟨raw, hraw, hconv⟩ := List.mem_map.mp hm
              exact Or.inr ⟨raw, by simp [allWcs, hraw], hconv.symm⟩
          · obtain ⟨raw, hraw, hconv⟩ := h2
            exact Or.inr ⟨raw, by simp [allWcs, hraw], hconv⟩
        · rw [waitLoop_ok_zero expected wcs rest numPolled acc hle hw] at h
          rcases ih numPolled acc r out h wc hwc with h1 | h2
          · exact Or.inl h1
          · obtain ⟨raw, hraw, hconv⟩ := h2
            exact Or.inr ⟨raw, by simp [allWcs, hraw], hconv⟩
      | err e =>
        rw [waitLoop_err expected e rest numPolled acc hle] at h
        simp at h
        rw [← h.2] at hwc
        exact Or.inl hwc

/-- The "clear polled_wcs when non-empty" step always leaves the empty
list. -/
theorem cleared_is_nil (init : List WorkCompletion) :
    (if 0 < init.length then ([] : List WorkCompletion) else init) = [] := by
  by_cases h : 0 < init.length
  · simp [h]
  · have h0 : init.length = 0 := Nat.eq_zero_of_not_pos h
    simp [h, List.length_eq_zero.mp h0]

/-- wait_until_send_completion is the polling loop started from an empty
output list and a zero count. -/
theorem wait_until_send_eq_waitLoop (n : Nat) (init : List WorkCompletion)
    (polls : List PollOutcome) :
    wait_until_send_completion n init polls = waitLoop n polls 0 [] := by
  unfold wait_until_send_completion
  rw [cleared_is_nil]

/-- wait_until_recv_completion is the same polling loop. -/
theorem wait_until_recv_eq_waitLoop (n : Nat) (init : List WorkCompletion)
    (polls : List PollOutcome) :
    wait_until_recv_completion n init polls = waitLoop n polls 0 [] := by
  unfold wait_until_recv_completion
  rw [cleared_is_nil]

/-- C5: for every n ≥ 1, wait_until_send_completion(n, out) and
wait_until_recv_completion(n, out) first clear out (the result does not
depend on the incoming contents of out, and the two functions agree on the
same poll outcomes), return 0 only with at least n polled work completions
in out, and return the negative code of the first failing poll as soon as a
poll reports an error; there is no other exit from the loop. -/
theorem wait_until_completion_spec (n : Nat) (hn : 1 ≤ n)
    (init : List WorkCompletion) (polls : List PollOutcome) :
    wait_until_send_completion n init polls =
      wait_until_send_completion n [] polls ∧
    wait_until_recv_completion n init polls =
      wait_until_send_completion n init polls ∧
    ∀ (r : Int) (out : List WorkCompletion),
      wait_until_send_completion n init polls = some (r, out) →
      (r = 0 ∧ n ≤ out.length) ∨ (r < 0 ∧ firstErr polls = some r) := by
  refine ⟨?_, ?_, ?_⟩
  · rw [wait_until_send_eq_waitLoop, wait_until_send_eq_waitLoop]
  · rw [wait_until_send_eq_waitLoop, wait_until_recv_eq_waitLoop]
  · intro r out h
    rw [wait_until_send_eq_waitLoop] at h
    exact waitLoop_result n polls 0 [] rfl r out h

/-- Witness for C5 at concrete inputs: two completions expected, a stale
entry in the output vector, a first poll returning one completion and a
second returning one more. -/
theorem wait_until_completion_spec_witness :
    wait_until_send_completion 2 [⟨true, 9⟩]
        [PollOutcome.ok [⟨1, 0, 0, 0, 0⟩], PollOutcome.ok [⟨2, 0, 0, 0, 0⟩]] =
      wait_until_send_completion 2 []
        [PollOutcome.ok [⟨1, 0, 0, 0, 0⟩], PollOutcome.ok [⟨2, 0, 0, 0, 0⟩]] :=
  (wait_until_completion_spec 2 (by decide) [⟨true, 9⟩]
    [PollOutcome.ok [⟨1, 0, 0, 0, 0⟩], PollOutcome.ok [⟨2, 0, 0, 0, 0⟩]]).1

/-- C6 as stated is false on the code: struct WorkCompletion carries only a
success flag and wr_id, so two raw verbs completions that differ in opcode,
byte_len and imm_data are delivered to the caller identically. -/
theorem work_completion_fields_counterexample :
    wait_until_send_completion 1 [] [PollOutcome.ok [⟨7, 0, 0, 512, 0⟩]] =
      wait_until_send_completion 1 [] [PollOutcome.ok [⟨7, 0, 4, 1024, 99⟩]] ∧
    (⟨7, 0, 0, 512, 0⟩ : IbvWc).byte_len ≠ (⟨7, 0, 4, 1024, 99⟩ : IbvWc).byte_len ∧
    (⟨7, 0, 0, 512, 0⟩ : IbvWc).opcode ≠ (⟨7, 0, 4, 1024, 99⟩ : IbvWc).opcode ∧
    (⟨7, 0, 0, 512, 0⟩ : IbvWc).imm_data ≠ (⟨7, 0, 4, 1024, 99⟩ : IbvWc).imm_data := by
  decide

/-- C6 amended: every work completion delivered to the caller by the
completion-polling operations reports exactly two fields of the underlying
verbs completion: its wr_id, and a success flag equal to
(status == IBV_WC_SUCCESS); opcode, byte_len and imm_data are not
delivered. -/
theorem delivered_completion_fields (n : Nat) (init : List WorkCompletion)
    (polls : List PollOutcome) (r : Int) (out : List WorkCompletion)
    (h : wait_until_send_completion n init polls = some (r, out) ∨
      wait_until_recv_completion n init polls = some (r, out)) :
    ∀ wc ∈ out, ∃ raw ∈ allWcs polls,
      wc.wr_id = raw.wr_id ∧ wc.success = (raw.status == IBV_WC_SUCCESS) := by
  have hloop : waitLoop n polls 0 [] = some (r, out) := by
    rcases h with h | h
    · rw [wait_until_send_eq_waitLoop] at h
      exact h
    · rw [wait_until_recv_eq_waitLoop] at h
      exact h
  intro wc hwc
  rcases waitLoop_out_mem n polls 0 [] r out hloop wc hwc with h1 | h2
  · simp at h1
  · obtain ⟨raw, hraw, hconv⟩ := h2
    exact ⟨raw, hraw, by rw [hconv]; rfl, by rw [hconv]; rfl⟩

/-- Witness for the amended C6: a single delivered completion reports the
wr_id and the success flag of the raw completion it came from. -/
theorem delivered_completion_fields_witness :
    ∃ raw ∈ allWcs [PollOutcome.ok [⟨7, 5, 0, 512, 0⟩]],
      ({ success := false, wr_id := 7 } : WorkCompletion).wr_id = raw.wr_id ∧
      ({ success := false, wr_id := 7 } : WorkCompletion).success =
        (raw.status == IBV_WC_SUCCESS) :=
  delivered_completion_fields 1 [] [PollOutcome.ok [⟨7, 5, 0, 512, 0⟩]] 0
    [{ success := false, wr_id := 7 }] (Or.inl (by decide))
    { success := false, wr_id := 7 } (by decide)

/-- C9: work completions whose status is not IBV_WC_SUCCESS count toward the
expected completion count, and both wait functions still return 0: with no
poll error and at least n completions available the return value is 0
regardless of the per-completion statuses, at least n entries are delivered,
each entry is the {success, wr_id} projection of an underlying raw
completion, and a failed status is visible to the caller only through the
success flag of its entry. -/
theorem wait_until_counts_failed_statuses (n : Nat) (polls : List PollOutcome)
    (herr : firstErr polls = none) (htot : n ≤ totalPolled polls) :
    ∃ out, wait_until_send_completion n [] polls = some (0, out) ∧
      wait_until_recv_completion n [] polls = some (0, out) ∧
      n ≤ out.length ∧
      (∀ wc ∈ out, ∃ raw ∈ allWcs polls, wc = toWorkCompletion raw) ∧
      ∀ raw : IbvWc, (toWorkCompletion raw).success =
        (raw.status == IBV_WC_SUCCESS) := by
  obtain ⟨out, hout⟩ := waitLoop_no_err n polls 0 [] herr (by simpa using htot)
  refine ⟨out, ?_, ?_, ?_, ?_, fun raw => rfl⟩
  · rw [wait_until_send_eq_waitLoop]
    exact hout
  · rw [wait_until_recv_eq_waitLoop]
    exact hout
  · rcases waitLoop_result n polls 0 [] rfl 0 out hout with h1 | h2
    · exact h1.2
    · exact absurd h2.1 (by decide)
  · intro wc hwc
    rcases waitLoop_out_mem n polls 0 [] 0 out hout wc hwc with h1 | h2
    · simp at h1
    · exact h2

/-- Witness for C9: one expected completion, one polled completion with a
failing status (status 5), return value 0. -/
theorem wait_until_counts_failed_statuses_witness :
    ∃ out, wait_until_send_completion 1 [] [PollOutcome.ok [⟨3, 5, 0, 0, 0⟩]] =
        some (0, out) ∧
      wait_until_recv_completion 1 [] [PollOutcome.ok [⟨3, 5, 0, 0, 0⟩]] =
        some (0, out) ∧
      1 ≤ out.length ∧
      (∀ wc ∈ out, ∃ raw ∈ allWcs [PollOutcome.ok [⟨3, 5, 0, 0, 0⟩]],
        wc = toWorkCompletion raw) ∧
      ∀ raw : IbvWc, (toWorkCompletion raw).success =
        (raw.status == IBV_WC_SUCCESS) :=
  wait_until_counts_failed_statuses 1 [PollOutcome.ok [⟨3, 5, 0, 0, 0⟩]]
    (by decide) (by decide)

/-- The four verbs resource kinds wrapped by rdma_util.h. -/
inductive Resource where
  | mr
  | qp
  | pd
  | ctx
deriving DecidableEq

/-- The strong shared_ptr references held by the wrapper classes:
MemoryRegion stores pd_ and context_ (rdma_util.h lines 475-476),
RcQueuePair stores pd_ and context_ (lines 149-150), and ProtectionDomain
stores context_ (line 109). -/
def holdsRef : Resource → Resource → Bool
  | Resource.mr, Resource.pd => true
  | Resource.mr, Resource.ctx => true
  | Resource.qp, Resource.pd => true
  | Resource.qp, Resource.ctx => true
  | Resource.pd, Resource.ctx => true
  | _, _ => false

/-- One resource of each kind, derived from the same device context. -/
def allResources : List Resource :=
  [Resource.mr, Resource.qp, Resource.pd, Resource.ctx]

/-- A destruction order consistent with shared_ptr reference counting: it
destroys each of the four resources exactly once, and a resource that holds
a strong reference to another is destroyed strictly before it (the holder's
destructor must run and drop its reference before the target's reference
count can reach zero). -/
def validReleaseOrder (ord : List Resource) : Prop :=
  List.Perm ord allResources ∧
  ∀ a ∈ allResources, ∀ b ∈ allResources, holdsRef a b = true →
    List.indexOf a ord < List.indexOf b ord

/-- C7: every MemoryRegion and every RcQueuePair holds a shared reference to
its ProtectionDomain and its Context, and every ProtectionDomain holds a
shared reference to its Context; consequently, in any destruction order
consistent with reference counting, the protection domain is destroyed
after the memory region and after the queue pair derived from it, and the
device context is destroyed after every other resource. -/
theorem resource_release_order (ord : List Resource)
    (h : validReleaseOrder ord) :
    (holdsRef Resource.mr Resource.pd = true ∧
     holdsRef Resource.mr Resource.ctx = true ∧
     holdsRef Resource.qp Resource.pd = true ∧
     holdsRef Resource.qp Resource.ctx = true ∧
     holdsRef Resource.pd Resource.ctx = true) ∧
    List.indexOf Resource.mr ord < List.indexOf Resource.pd ord ∧
    List.indexOf Resource.qp ord < List.indexOf Resource.pd ord ∧
    ∀ r : Resource, r ≠ Resource.ctx →
      List.indexOf r ord < List.indexOf Resource.ctx ord := by
  obtain ⟨-, h2⟩ := h
  refine ⟨by decide, ?_, ?_, ?_⟩
  · exact h2 Resource.mr (by decide) Resource.pd (by decide) rfl
  · exact h2 Resource.qp (by decide) Resource.pd (by decide) rfl
  · intro r hne
    cases r with
    | mr => exact h2 Resource.mr (by decide) Resource.ctx (by decide) rfl
    | qp => exact h2 Resource.qp (by decide) Resource.ctx (by decide) rfl
    | pd => exact h2 Resource.pd (by decide) Resource.ctx (by decide) rfl
    | ctx => exact absurd rfl hne

/-- Witness for C7: the order MR, QP, PD, Context is a valid release order
and satisfies the ordering conclusions. -/
theorem resource_release_order_witness :
    (holdsRef Resource.mr Resource.pd = true ∧
     holdsRef Resource.mr Resource.ctx = true ∧
     holdsRef Resource.qp Resource.pd = true ∧
     holdsRef Resource.qp Resource.ctx = true ∧
     holdsRef Resource.pd Resource.ctx = true) ∧
    List.indexOf Resource.mr allResources <
      List.indexOf Resource.pd allResources ∧
    List.indexOf Resource.qp allResources <
      List.indexOf Resource.pd allResources ∧
    ∀ r : Resource, r ≠ Resource.ctx →
      List.indexOf r allResources < List.indexOf Resource.ctx allResources :=
  resource_release_order allResources (by constructor <;> decide)

/-- The data-buffer size of src/benchmarks/bench_tccl.cpp with USE_CUDA
(the bandwidth-saturation scenario): 75 GiB. -/
def kDataBufferSize : Nat := 75 * 1024 * 1024 * 1024

/-- The chunk size of src/benchmarks/bench_tccl.cpp: 16 MiB. -/
def kChunkSize : Nat := 16 * 1024 * 1024

/-- The value of the atomic bytes_transferred after the receiver thread has
completed k iterations of its loop (bench_tccl.cpp lines 71-74): it starts
at 0 and the only mutation in the program is fetch_add(kChunkSize) once per
completed chunk recv. -/
def bytesTransferredAfter : Nat → Nat
  | 0 => 0
  | k + 1 => bytesTransferredAfter k + kChunkSize

/-- Closed form of the accumulator. -/
theorem bytesTransferredAfter_eq (k : Nat) :
    bytesTransferredAfter k = k * kChunkSize := by
  induction k with
  | zero => rfl
  | succ k ih => simp [bytesTransferredAfter, ih, Nat.succ_mul]

/-- C8: in the bandwidth-saturation scenario the cumulative byte count
observed by the reporter is monotonically non-decreasing (the accumulator is
only ever incremented, by kChunkSize per completed chunk), and after all
kDataBufferSize / kChunkSize loop iterations the total transferred equals
75·1024³ bytes, which is the full data buffer. -/
theorem bandwidth_saturation_monotone_total :
    (∀ k l, k ≤ l → bytesTransferredAfter k ≤ bytesTransferredAfter l) ∧
    bytesTransferredAfter (kDataBufferSize / kChunkSize) = 75 * 1024 ^ 3 ∧
    kDataBufferSize = 75 * 1024 ^ 3 := by
  refine ⟨?_, ?_, by norm_num [kDataBufferSize]⟩
  · intro k l hkl
    rw [bytesTransferredAfter_eq, bytesTransferredAfter_eq]
    exact Nat.mul_le_mul_right _ hkl
  · rw [bytesTransferredAfter_eq]
    norm_num [kDataBufferSize, kChunkSize]

/-- Witness for C8: monotonicity instantiated at two concrete reporter
observations, plus the closed total. -/
theorem bandwidth_saturation_witness :
    bytesTransferredAfter 3 ≤ bytesTransferredAfter 5 ∧
    kDataBufferSize = 75 * 1024 ^ 3 :=
  ⟨bandwidth_saturation_monotone_total.1 3 5 (by decide),
    bandwidth_saturation_monotone_total.2.2⟩

/-- Modelled from the spec: the TcclContext stream engine (its send/recv
submission queues, the per-stream FIFO matcher of spec §4.2-§4.4, and the
completion of each recv with the matched send's bytes) is code of this
repository that is not under src/; only its caller
src/benchmarks/bench_tccl.cpp is.  A submission trace event is either a
send on a stream carrying the byte sequence at the submitted address, or a
recv on a stream posting a buffer. -/
inductive TcclOp where
  | send (stream_id : Nat) (payload : List Nat)
  | recv (stream_id : Nat)
deriving DecidableEq

/-- Modelled from the spec: the per-stream matcher state of one context
pair, as seen for a single stream_id: the FIFO of submitted sends not yet
matched, the number of posted recv buffers not yet matched, and the byte
sequences observed by the completed recvs, in completion order (spec §4.2
invariant I1: heads of matching FIFOs with the same stream_id pair 1:1 and
in submission order). -/
structure StreamState where
  pendingSends : List (List Nat)
  pendingRecvs : Nat
  delivered : List (List Nat)
deriving DecidableEq

/-- The empty matcher state. -/
def StreamState.initState : StreamState :=
  { pendingSends := [], pendingRecvs := 0, delivered := [] }

/-- Modelled from the spec: a send submission on a stream.  If no send is
queued ahead of it and a posted recv is waiting, the pair is matched and
the recv completes observing the send's bytes; otherwise the send enters
the tail of the stream's send FIFO (spec §5: submissions enter the send
queue in program order). -/
def applySend (s : StreamState) (p : List Nat) : StreamState :=
  match s.pendingSends, s.pendingRecvs with
  | [], r + 1 =>
      { s with pendingRecvs := r, delivered := s.delivered ++ [p] }
  | _, _ => { s with pendingSends := s.pendingSends ++ [p] }

/-- Modelled from the spec: a recv submission on a stream.  If a send is
queued, the head of the send FIFO is matched and the recv completes
observing its bytes; otherwise the posted recv waits. -/
def applyRecv (s : StreamState) : StreamState :=
  match s.pendingSends with
  | p :: rest =>
      { s with pendingSends := rest, delivered := s.delivered ++ [p] }
  | [] => { s with pendingRecvs := s.pendingRecvs + 1 }

/-- One trace event applied to the per-stream states: only the state of the
event's stream changes (spec §4.2 invariant I2: orderings across distinct
stream_ids are independent). -/
def stepOp (st : Nat → StreamState) : TcclOp → Nat → StreamState
  | TcclOp.send sid p => fun k => if k = sid then applySend (st sid) p else st k
  | TcclOp.recv sid => fun k => if k = sid then applyRecv (st sid) else st k

/-- The per-stream states after a whole submission trace, starting empty. -/
def runOps (ops : List TcclOp) : Nat → StreamState :=
  ops.foldl stepOp (fun _ => StreamState.initState)

/-- The byte sequences submitted by send() on one stream, in submission
(program) order. -/
def sendsOn (sid : Nat) : List TcclOp → List (List Nat)
  | [] => []
  | TcclOp.send s p :: rest =>
      if s = sid then p :: sendsOn sid rest else sendsOn sid rest
  | TcclOp.recv _ :: rest => sendsOn sid rest

/-- A send submission appends its payload to the stream's
delivered-then-pending sequence. -/
theorem applySend_delivered (s : StreamState) (p : List Nat) :
    (applySend s p).delivered ++ (applySend s p).pendingSends =
      s.delivered ++ s.pendingSends ++ [p] := by
  cases hps : s.pendingSends with
  | nil =>
    cases hr : s.pendingRecvs with
    | zero => simp [applySend, hps, hr]
    | succ r => simp [applySend, hps, hr]
  | cons q qs => simp [applySend, hps]

/-- A recv submission leaves the stream's delivered-then-pending sequence
unchanged. -/
theorem applyRecv_delivered (s : StreamState) :
    (applyRecv s).delivered ++ (applyRecv s).pendingSends =
      s.delivered ++ s.pendingSends := by
  cases hps : s.pendingSends with
  | nil => simp [applyRecv, hps]
  | cons q qs => simp [applyRecv, hps]

/-- Invariant of the matcher: on each stream, the delivered byte sequences
followed by the still-pending sends are exactly the sends submitted on that
stream, in submission order. -/
theorem foldl_delivered (ops : List TcclOp) :
    ∀ (st : Nat → StreamState) (sid : Nat),
      ((ops.foldl stepOp st) sid).delivered ++
          ((ops.foldl stepOp st) sid).pendingSends =
        (st sid).delivered ++ (st sid).pendingSends ++ sendsOn sid ops := by
  induction ops with
  | nil =>
    intro st sid
    simp [sendsOn]
  | cons op rest ih =>
    intro st sid
    rw [List.foldl_cons, ih (stepOp st op) sid]
    cases op with
    | send s p =>
      by_cases hs : s = sid
      · subst hs
        simp [stepOp, sendsOn, applySend_delivered]
      · simp [stepOp, sendsOn, hs, Ne.symm hs]
    | recv s =>
      by_cases hs : s = sid
      · subst hs
        simp [stepOp, sendsOn, applyRecv_delivered]
      · simp [stepOp, sendsOn, Ne.symm hs]

/-- C1 (modelled from the spec): for every stream_id and every submission
trace, the completed recvs on that stream observe, in order, exactly the
byte sequences submitted by the sends on that stream: the delivered list is
the prefix of the stream's send submissions of its own length, so the k-th
successful recv observes exactly the bytes of the k-th send, with send
submissions entering the queue in program (trace) order. -/
theorem per_stream_fifo (ops : List TcclOp) (sid : Nat) :
    (runOps ops sid).delivered =
      (sendsOn sid ops).take ((runOps ops sid).delivered.length) ∧
    ∀ k, k < (runOps ops sid).delivered.length →
      (runOps ops sid).delivered.get? k = (sendsOn sid ops).get? k := by
  have key : (runOps ops sid).delivered ++ (runOps ops sid).pendingSends =
      sendsOn sid ops := by
    have h := foldl_delivered ops (fun _ => StreamState.initState) sid
    simpa [runOps, StreamState.initState] using h
  have htake : (runOps ops sid).delivered =
      (sendsOn sid ops).take ((runOps ops sid).delivered.length) := by
    conv_lhs =>
      rw [← List.take_left (runOps ops sid).delivered
        (runOps ops sid).pendingSends]
    rw [key]
  refine ⟨htake, ?_⟩
  intro k hk
  rw [htake]
  rw [List.get?_take hk]

/-- Witness for C1: a concrete trace interleaving two streams; on stream 7
the second completed recv observes the bytes of the second send. -/
theorem per_stream_fifo_witness :
    (runOps [TcclOp.send 7 [1, 2, 3], TcclOp.send 5 [9], TcclOp.recv 7,
        TcclOp.send 7 [4], TcclOp.recv 7] 7).delivered =
      (sendsOn 7 [TcclOp.send 7 [1, 2, 3], TcclOp.send 5 [9], TcclOp.recv 7,
        TcclOp.send 7 [4], TcclOp.recv 7]).take
        ((runOps [TcclOp.send 7 [1, 2, 3], TcclOp.send 5 [9], TcclOp.recv 7,
          TcclOp.send 7 [4], TcclOp.recv 7] 7).delivered.length) ∧
    (runOps [TcclOp.send 7 [1, 2, 3], TcclOp.send 5 [9], TcclOp.recv 7,
        TcclOp.send 7 [4], TcclOp.recv 7] 7).delivered.get? 1 =
      (sendsOn 7 [TcclOp.send 7 [1, 2, 3], TcclOp.send 5 [9], TcclOp.recv 7,
        TcclOp.send 7 [4], TcclOp.recv 7]).get? 1 :=
  ⟨(per_stream_fifo [TcclOp.send 7 [1, 2, 3], TcclOp.send 5 [9], TcclOp.recv 7,
      TcclOp.send 7 [4], TcclOp.recv 7] 7).1,
    (per_stream_fifo [TcclOp.send 7 [1, 2, 3], TcclOp.send 5 [9], TcclOp.recv 7,
      TcclOp.send 7 [4], TcclOp.recv 7] 7).2 1 (by decide)⟩
